import Mathlib

/-!
Shallow embedding of the news_v0 ingestion/classification/digest core
(`src/unnamed/part_005` URL hashing, `src/unnamed/part_006` rule tagger and
cascade, `src/lib/services/fetcher.ts`, `src/lib/services/digest.ts`,
`src/lib/services/ai.ts`, `src/db/schema.ts`), together with theorems
settling the spec's claims about it.

JS strings are modelled as Lean `String`; the JS functions used by the code
(`toLowerCase`, `trim`, `includes`) are embedded for the ASCII range, on
which all inputs of interest live.
-/

namespace NewsV0

/-! ## ASCII string helpers (JS semantics, ASCII range) -/

/-- `String.prototype.toLowerCase`, ASCII range. -/
def lowerChar (c : Char) : Char :=
  if 'A' ≤ c ∧ c ≤ 'Z' then Char.ofNat (c.toNat + 32) else c

/-- Lowercase a whole string, character by character. -/
def lowerStr (s : String) : String := String.mk (s.data.map lowerChar)

/-- JS whitespace characters relevant to `trim` (ASCII subset). -/
def isWsChar (c : Char) : Bool := c == ' ' || c == '\t' || c == '\n' || c == '\r'

/-- `String.prototype.trim`, ASCII whitespace. -/
def trimStr (s : String) : String :=
  String.mk (((s.data.dropWhile isWsChar).reverse.dropWhile isWsChar).reverse)

/-- Decides whether `pat` is a prefix of `l` (over `Char` lists). -/
def isPrefixL : List Char → List Char → Bool
  | [], _ => true
  | _ :: _, [] => false
  | a :: as, b :: bs => a == b && isPrefixL as bs

/-- `String.prototype.includes`: `pat` occurs as a contiguous substring. -/
def containsSub (pat : List Char) : List Char → Bool
  | [] => isPrefixL pat []
  | c :: rest => isPrefixL pat (c :: rest) || containsSub pat rest

/-- `haystack.includes(needle)` on strings. -/
def strIncludes (haystack needle : String) : Bool :=
  containsSub needle.data haystack.data

/-! ## SHA-256 (`crypto.createHash("sha256")`), over byte lists

Machine 32-bit words are `Nat` reduced `% 2^32`. `hashUrl` feeds the hash
UTF-8 bytes; for ASCII strings those bytes are the code points. -/

def M32 : Nat := 4294967296

def add32 (a b : Nat) : Nat := (a + b) % M32

def rotr (n x : Nat) : Nat := (x >>> n) ||| ((x <<< (32 - n)) % M32)

def xor3 (a b c : Nat) : Nat := (a ^^^ b) ^^^ c

def shaCh (x y z : Nat) : Nat := (x &&& y) ^^^ ((x ^^^ 4294967295) &&& z)

def shaMaj (x y z : Nat) : Nat := xor3 (x &&& y) (x &&& z) (y &&& z)

def bigSigma0 (x : Nat) : Nat := xor3 (rotr 2 x) (rotr 13 x) (rotr 22 x)

def bigSigma1 (x : Nat) : Nat := xor3 (rotr 6 x) (rotr 11 x) (rotr 25 x)

def smallSigma0 (x : Nat) : Nat := xor3 (rotr 7 x) (rotr 18 x) (x >>> 3)

def smallSigma1 (x : Nat) : Nat := xor3 (rotr 17 x) (rotr 19 x) (x >>> 10)

/-- The 64 FIPS 180-4 round constants, in decimal. -/
def K256 : List Nat :=
  [1116352408, 1899447441, 3049323471, 3921009573,
   961987163, 1508970993, 2453635748, 2870763221,
   3624381080, 310598401, 607225278, 1426881987,
   1925078388, 2162078206, 2614888103, 3248222580,
   3835390401, 4022224774, 264347078, 604807628,
   770255983, 1249150122, 1555081692, 1996064986,
   2554220882, 2821834349, 2952996808, 3210313671,
   3336571891, 3584528711, 113926993, 338241895,
   666307205, 773529912, 1294757372, 1396182291,
   1695183700, 1986661051, 2177026350, 2456956037,
   2730485921, 2820302411, 3259730800, 3345764771,
   3516065817, 3600352804, 4094571909, 275423344,
   430227734, 506948616, 659060556, 883997877,
   958139571, 1322822218, 1537002063, 1747873779,
   1955562222, 2024104815, 2227730452, 2361852424,
   2428436474, 2756734187, 3204031479, 3329325298]

/-- 8-word SHA-256 state. -/
structure Hash8 where
  a : Nat
  b : Nat
  c : Nat
  d : Nat
  e : Nat
  f : Nat
  g : Nat
  h : Nat
deriving Repr, DecidableEq

def shaInit : Hash8 :=
  ⟨1779033703, 3144134277, 1013904242, 2773480762,
   1359893119, 2600822924, 528734635, 1541459225⟩

/-- Eight big-endian bytes of a 64-bit length. -/
def be64 (n : Nat) : List Nat :=
  [(n >>> 56) % 256, (n >>> 48) % 256, (n >>> 40) % 256, (n >>> 32) % 256,
   (n >>> 24) % 256, (n >>> 16) % 256, (n >>> 8) % 256, n % 256]

/-- SHA-256 padding: append `0x80`, zeros to 56 mod 64, then the bit length. -/
def padBytes (msg : List Nat) : List Nat :=
  let len := msg.length
  msg ++ 0x80 :: List.replicate ((119 - len % 64) % 64) 0 ++ be64 (8 * len)

/-- Pack bytes into big-endian 32-bit words. -/
def toWords : List Nat → List Nat
  | a :: b :: c :: d :: rest =>
      ((a <<< 24) + (b <<< 16) + (c <<< 8) + d) :: toWords rest
  | _ => []

/-- Split a word list into 16-word blocks (structural recursion; padded
input is always a multiple of 16 words). -/
def toBlocks : List Nat → List (List Nat)
  | [] => []
  | w0 :: w1 :: w2 :: w3 :: w4 :: w5 :: w6 :: w7 ::
    w8 :: w9 :: w10 :: w11 :: w12 :: w13 :: w14 :: w15 :: rest =>
      [w0, w1, w2, w3, w4, w5, w6, w7,
       w8, w9, w10, w11, w12, w13, w14, w15] :: toBlocks rest
  | ws => [ws]

def wAt (w : List Nat) (i : Nat) : Nat := w.getD i 0

/-- Extend a 16-word block by `k` scheduled words. -/
def extendSchedule (w : List Nat) : Nat → List Nat
  | 0 => w
  | k + 1 =>
      let w2 := extendSchedule w k
      let n := w2.length
      w2 ++ [add32 (add32 (smallSigma1 (wAt w2 (n - 2))) (wAt w2 (n - 7)))
               (add32 (smallSigma0 (wAt w2 (n - 15))) (wAt w2 (n - 16)))]

def schedule (block : List Nat) : List Nat := extendSchedule block 48

/-- One SHA-256 round: `kw` pairs the round constant with the message word. -/
def roundStep (st : Hash8) (kw : Nat × Nat) : Hash8 :=
  let t1 := add32 st.h (add32 (bigSigma1 st.e)
    (add32 (shaCh st.e st.f st.g) (add32 kw.1 kw.2)))
  let t2 := add32 (bigSigma0 st.a) (shaMaj st.a st.b st.c)
  ⟨add32 t1 t2, st.a, st.b, st.c, add32 st.d t1, st.e, st.f, st.g⟩

/-- Compress one block into the running state. -/
def compress (st : Hash8) (block : List Nat) : Hash8 :=
  let r := (K256.zip (schedule block)).foldl roundStep st
  ⟨add32 st.a r.a, add32 st.b r.b, add32 st.c r.c, add32 st.d r.d,
   add32 st.e r.e, add32 st.f r.f, add32 st.g r.g, add32 st.h r.h⟩

def hexDigitChar (n : Nat) : Char :=
  if n < 10 then Char.ofNat (48 + n) else Char.ofNat (87 + n)

/-- Lowercase hex rendering of one 32-bit word. -/
def wordHex (w : Nat) : List Char :=
  [hexDigitChar ((w >>> 28) % 16), hexDigitChar ((w >>> 24) % 16),
   hexDigitChar ((w >>> 20) % 16), hexDigitChar ((w >>> 16) % 16),
   hexDigitChar ((w >>> 12) % 16), hexDigitChar ((w >>> 8) % 16),
   hexDigitChar ((w >>> 4) % 16), hexDigitChar (w % 16)]

/-- SHA-256 digest of a byte list, as lowercase hex (`digest("hex")`). -/
def sha256hex (msg : List Nat) : String :=
  let st := (toBlocks (toWords (padBytes msg))).foldl compress shaInit
  String.mk (wordHex st.a ++ wordHex st.b ++ wordHex st.c ++ wordHex st.d ++
    wordHex st.e ++ wordHex st.f ++ wordHex st.g ++ wordHex st.h)

/-- UTF-8 bytes of an ASCII string (code points coincide with bytes). -/
def strBytes (s : String) : List Nat := s.data.map Char.toNat

def sha256OfString (s : String) : String := sha256hex (strBytes s)

/-! ## URL model (`src/unnamed/part_005`: `normalizeUrl`, `hashUrl`)

`new URL` is embedded for hierarchical `scheme://host/path?query#fragment`
URLs (the shape every feed URL has); scheme and host are lowercased by the
parser, as WHATWG prescribes, and query pairs are percent-decoded on parse
and form-encoded on serialization exactly as `URLSearchParams` does, in the
ASCII range. Strings without a `scheme://host` part fail to parse, which is
the code's catch/fallback path. -/

/-- A parsed URL, the fields `normalizeUrl` reads off the `URL` object. -/
structure ParsedUrl where
  protocol : String
  host : String
  pathname : String
  searchParams : List (String × String)
  fragment : String
deriving Repr, DecidableEq

/-- Split at the first occurrence of `sep`: part before, rest after (if any). -/
def splitOnce (sep : Char) : List Char → List Char × Option (List Char)
  | [] => ([], none)
  | c :: rest =>
      if c == sep then ([], some rest)
      else
        let (a, b) := splitOnce sep rest
        (c :: a, b)

/-- Split at every occurrence of `sep`. -/
def splitAllOn (sep : Char) (l : List Char) : List (List Char) :=
  l.foldr
    (fun c acc =>
      if c == sep then [] :: acc
      else
        match acc with
        | [] => [[c]]
        | a :: as => (c :: a) :: as)
    [[]]

def hexVal (c : Char) : Option Nat :=
  if '0' ≤ c ∧ c ≤ '9' then some (c.toNat - 48)
  else if 'a' ≤ c ∧ c ≤ 'f' then some (c.toNat - 87)
  else if 'A' ≤ c ∧ c ≤ 'F' then some (c.toNat - 55)
  else none

/-- `application/x-www-form-urlencoded` percent decoding (ASCII bytes). -/
def percentDecodeBytes : List Char → List Nat
  | [] => []
  | '+' :: rest => 32 :: percentDecodeBytes rest
  | '%' :: a :: b :: rest =>
      match hexVal a, hexVal b with
      | some ha, some hb => (16 * ha + hb) :: percentDecodeBytes rest
      | _, _ => 37 :: percentDecodeBytes (a :: b :: rest)
  | c :: rest => c.toNat :: percentDecodeBytes rest

def percentDecodeStr (l : List Char) : String :=
  String.mk ((percentDecodeBytes l).map Char.ofNat)

/-- Characters `URLSearchParams.toString` leaves unescaped. -/
def isFormSafe (c : Char) : Bool :=
  ('A' ≤ c && c ≤ 'Z') || ('a' ≤ c && c ≤ 'z') || ('0' ≤ c && c ≤ '9') ||
  c == '*' || c == '-' || c == '.' || c == '_'

def hexUpper (n : Nat) : Char :=
  if n < 10 then Char.ofNat (48 + n) else Char.ofNat (55 + n)

/-- Form-encode one character (`+` for space, `%XX` otherwise). -/
def formEncodeChar (c : Char) : List Char :=
  if isFormSafe c then [c]
  else if c == ' ' then ['+']
  else ['%', hexUpper (c.toNat / 16 % 16), hexUpper (c.toNat % 16)]

def formEncodeStr (s : String) : String :=
  String.mk (s.data.foldr (fun c acc => formEncodeChar c ++ acc) [])

/-- `URLSearchParams` parsing of a raw query (no leading `?`). -/
def parseQueryParams (q : List Char) : List (String × String) :=
  (splitAllOn '&' q).filterMap fun piece =>
    if piece.isEmpty then none
    else
      let (n, v) := splitOnce '=' piece
      some (percentDecodeStr n, percentDecodeStr (v.getD []))

/-- `URLSearchParams.toString`: `&`-joined `name=value` pairs, form
encoded. -/
def paramsToString : List (String × String) → String
  | [] => ""
  | [kv] => formEncodeStr kv.1 ++ "=" ++ formEncodeStr kv.2
  | kv :: rest =>
      formEncodeStr kv.1 ++ "=" ++ formEncodeStr kv.2 ++ "&" ++
        paramsToString rest

def isSchemeChar (c : Char) : Bool :=
  ('A' ≤ c && c ≤ 'Z') || ('a' ≤ c && c ≤ 'z') || ('0' ≤ c && c ≤ '9') ||
  c == '+' || c == '-' || c == '.'

def isAlphaChar (c : Char) : Bool :=
  ('A' ≤ c && c ≤ 'Z') || ('a' ≤ c && c ≤ 'z')

/-- Host characters run until `/`, `?` or `#`. -/
def spanHost : List Char → List Char × List Char
  | [] => ([], [])
  | c :: rest =>
      if c == '/' || c == '?' || c == '#' then ([], c :: rest)
      else
        let (h, r) := spanHost rest
        (c :: h, r)

/-- `new URL(url)` for `scheme://host...` URLs; `none` models the throw. -/
def parseUrl (url : String) : Option ParsedUrl :=
  match splitOnce ':' url.data with
  | (sch, some ('/' :: '/' :: rest)) =>
      if sch ≠ [] ∧ sch.all isSchemeChar ∧ isAlphaChar (sch.headD 'a') then
        let (host, rem) := spanHost rest
        if host = [] then none
        else
          let (beforeHash, hashPart) := splitOnce '#' rem
          let (path, queryPart) := splitOnce '?' beforeHash
          some
            { protocol := lowerStr (String.mk sch) ++ ":"
              host := lowerStr (String.mk host)
              pathname := if path = [] then "/" else String.mk path
              searchParams := parseQueryParams (queryPart.getD [])
              fragment := String.mk (hashPart.getD []) }
      else none
  | _ => none

/-- The fixed tracking-parameter drop list. -/
def trackingParams : List String :=
  ["utm_source", "utm_medium", "utm_campaign", "utm_term", "utm_content",
   "ref", "source", "fbclid", "gclid"]

/-- `trackingParams.forEach(p => parsed.searchParams.delete(p))`. -/
def deleteTracking (ps : List (String × String)) : List (String × String) :=
  ps.filter fun kv => !(trackingParams.contains kv.1)

/-- `.replace(/\/$/, "")`: drop one trailing slash. -/
def stripTrailingSlash (s : String) : String :=
  match s.data.reverse with
  | '/' :: rest => String.mk rest.reverse
  | _ => s

/-- The `try` branch of `normalizeUrl`, given the parsed URL. -/
def normalizeFromParsed (p : ParsedUrl) : String :=
  let base := p.protocol ++ "//" ++ p.host ++ p.pathname
  let q := paramsToString (deleteTracking p.searchParams)
  let full := if q = "" then base else base ++ "?" ++ q
  stripTrailingSlash (lowerStr full)

/-- `normalizeUrl` (part_005 lines 124-160). -/
def normalizeUrl (url : String) : String :=
  match parseUrl url with
  | some p => normalizeFromParsed p
  | none => trimStr (lowerStr url)

/-- Two strings agree up to letter case. -/
def strCaseEq (s t : String) : Prop := lowerStr s = lowerStr t

/-- Query pairs with identical names and case-equivalent values made of
characters the form encoding leaves unescaped. -/
def safeCaseEq (kv kv2 : String × String) : Prop :=
  kv.1 = kv2.1 ∧ strCaseEq kv.2 kv2.2 ∧
    (∀ c ∈ kv.2.data, isFormSafe c = true) ∧
    (∀ c ∈ kv2.2.data, isFormSafe c = true)

/-- Pointwise `safeCaseEq` over two query-parameter lists. -/
def paramsCaseEq (ps qs : List (String × String)) : Prop :=
  List.Forall₂ safeCaseEq ps qs

/-- `hashUrl` (part_005 lines 112-116). -/
def hashUrl (url : String) : String := sha256OfString (normalizeUrl url)

/-! ## Rule tagger and classification cascade (`src/unnamed/part_006`)

JS numbers on this code path take the values `min(n/3, 1)` and `0.33`, all
exactly representable comparisons, embedded in `ℚ`. `Object.entries`
iterates the object literals in insertion order, embedded as ordered
lists. -/

/-- One topic definition from the `TOPICS` literal: (slug, name, sortOrder). -/
structure TopicDef where
  name : String
  slug : String
  sortOrder : Nat
deriving Repr, DecidableEq

/-- The `TOPICS` literal, in insertion order. -/
def TOPICS : List TopicDef :=
  [⟨"AI & Machine Learning", "ai-ml", 1⟩,
   ⟨"Startups & Funding", "startups", 2⟩,
   ⟨"Programming & Dev Tools", "programming", 3⟩,
   ⟨"Cybersecurity", "cybersecurity", 4⟩,
   ⟨"Big Tech", "big-tech", 5⟩,
   ⟨"Crypto & Web3", "crypto", 6⟩,
   ⟨"Hardware & Gadgets", "hardware", 7⟩,
   ⟨"Science & Space", "science", 8⟩]

/-- `getAllTopics` (part_006 lines 370-372). -/
def getAllTopics : List TopicDef := TOPICS

/-- The `TOPIC_KEYWORDS` literal, in `Object.entries` order. -/
def TOPIC_KEYWORDS : List (String × List String) :=
  [("ai-ml",
    ["artificial intelligence", "machine learning", "deep learning",
     "neural network", "chatgpt", "gpt-4", "gpt-5", "openai", "anthropic",
     "claude", "gemini", "llm", "large language model", "generative ai",
     "midjourney", "stable diffusion", "dall-e", "copilot", "ai model",
     "transformer", "nlp", "computer vision", "tensorflow", "pytorch"]),
   ("startups",
    ["startup", "funding round", "series a", "series b", "series c",
     "seed funding", "venture capital", "vc", "valuation", "unicorn", "ipo",
     "acquisition", "acquired", "merger", "y combinator", "techstars",
     "accelerator", "incubator", "fundraise", "investor", "pitch deck"]),
   ("programming",
    ["programming", "developer", "software engineer", "javascript",
     "typescript", "python", "rust", "golang", "react", "vue", "angular",
     "node.js", "api", "github", "gitlab", "open source", "framework",
     "library", "sdk", "devops", "ci/cd", "docker", "kubernetes", "aws",
     "azure", "gcp", "serverless", "database", "postgresql", "mongodb",
     "redis", "graphql", "rest api", "microservices"]),
   ("cybersecurity",
    ["cybersecurity", "security", "hack", "hacker", "breach", "data leak",
     "vulnerability", "malware", "ransomware", "phishing", "zero-day",
     "exploit", "encryption", "privacy", "gdpr", "password",
     "authentication", "firewall", "vpn", "ddos", "cyber attack"]),
   ("big-tech",
    ["apple", "google", "microsoft", "amazon", "meta", "facebook",
     "netflix", "tesla", "nvidia", "intel", "amd", "qualcomm", "samsung",
     "iphone", "android", "windows", "macos", "ios", "pixel", "surface",
     "alexa", "siri", "tim cook", "sundar pichai", "satya nadella",
     "mark zuckerberg", "elon musk", "jeff bezos"]),
   ("crypto",
    ["crypto", "cryptocurrency", "bitcoin", "ethereum", "blockchain",
     "web3", "nft", "defi", "decentralized", "token", "wallet", "binance",
     "coinbase", "solana", "cardano", "dogecoin", "mining", "staking",
     "smart contract", "dao", "metaverse"]),
   ("hardware",
    ["hardware", "gadget", "device", "smartphone", "laptop", "tablet",
     "wearable", "smartwatch", "headphone", "earbuds", "vr headset",
     "ar glasses", "chip", "processor", "gpu", "cpu", "memory", "ssd",
     "display", "oled", "battery", "charger", "robot", "drone", "ev",
     "electric vehicle"]),
   ("science",
    ["science", "space", "nasa", "spacex", "rocket", "satellite", "mars",
     "moon", "asteroid", "telescope", "quantum", "physics", "biology",
     "climate", "research", "discovery", "experiment", "laboratory",
     "scientist", "breakthrough"])]

inductive TagSource where
  | rule : TagSource
  | ai : TagSource
deriving Repr, DecidableEq

/-- `TagResult` (part_006 lines 279-285). -/
structure TagResult where
  topicSlug : Option String
  confidence : ℚ
  source : TagSource
  matchedKeywords : Option (List String)
  reasoning : Option String
deriving Repr, DecidableEq

/-- `AI_FALLBACK_THRESHOLD` (part_006 line 288), the JS literal `0.33`.
Written `mkRat 33 100` (provably `33 / 100`, see
`AI_FALLBACK_THRESHOLD_eq`) so that concrete instances evaluate:
`Rat.mul`/`Rat.inv` behind `/` are irreducible to the elaborator. -/
def AI_FALLBACK_THRESHOLD : ℚ := mkRat 33 100

/-- The initial `bestMatch`. -/
def ruleInit : TagResult :=
  { topicSlug := none, confidence := 0, source := TagSource.rule,
    matchedKeywords := some [], reasoning := none }

/-- `bestMatch.matchedKeywords?.length || 0`. -/
def bestLen (r : TagResult) : Nat := (r.matchedKeywords.getD []).length

/-- One iteration of the `for (const [slug, keywords] of ...)` loop. -/
def ruleStep (text : String) (best : TagResult) (sk : String × List String) :
    TagResult :=
  let matched := sk.2.filter fun k => strIncludes text (lowerStr k)
  let conf : ℚ := min (mkRat matched.length 3) 1
  if matched.length > bestLen best then
    { topicSlug := some sk.1, confidence := conf, source := TagSource.rule,
      matchedKeywords := some matched, reasoning := none }
  else best

/-- The loop's text blob: `` `${title} ${description || ""}`.toLowerCase() ``. -/
def ruleText (title : String) (description : Option String) : String :=
  lowerStr (title ++ " " ++ description.getD "")

/-- `tagArticleWithRules` (part_006 lines 293-325). -/
def tagArticleWithRules (title : String) (description : Option String) :
    TagResult :=
  TOPIC_KEYWORDS.foldl (ruleStep (ruleText title description)) ruleInit

/-- How many of a topic's keywords occur in the text blob. -/
def matchCount (text : String) (sk : String × List String) : Nat :=
  (sk.2.filter fun k => strIncludes text (lowerStr k)).length

/-- The result record the rule loop writes when topic `sk` takes the lead. -/
def mkBest (text : String) (sk : String × List String) : TagResult :=
  { topicSlug := some sk.1,
    confidence := min (mkRat (matchCount text sk) 3) 1,
    source := TagSource.rule,
    matchedKeywords := some (sk.2.filter fun k => strIncludes text (lowerStr k)),
    reasoning := none }

/-- `AITagResult` (ai.ts line 24). -/
structure AITagResult where
  topicSlug : Option String
  confidence : ℚ
  reasoning : String
deriving Repr, DecidableEq

/-- External-world knobs the cascade depends on: whether
`process.env.OPENAI_API_KEY` is set, whether the dynamic import of `./ai`
resolves, and what the `generateObject` collaborator call does
(`some r` = returns `r`; `none` = fails: timeout, error status or
malformed/unparsable response, all surfaced as a throw). -/
structure AIEnv where
  keyPresent : Bool
  importOk : Bool
  callResult : Option AITagResult
deriving Repr, DecidableEq

/-- `aiTagArticle` (ai.ts lines 29-67): the `catch` turns any collaborator
failure into the fallback result instead of rethrowing. -/
def aiTagArticle (env : AIEnv) : AITagResult :=
  match env.callResult with
  | some r => r
  | none =>
      { topicSlug := none, confidence := 0, reasoning := "AI tagging failed" }

/-- `tagArticle` (part_006 lines 330-365). Second component: whether the
external classification collaborator was invoked. The `!env.importOk`
branch is `tagArticle`'s own `catch`: the import throws before any
collaborator call and the rule result is returned. -/
def tagArticle (title : String) (description : Option String) (useAI : Bool)
    (env : AIEnv) : TagResult × Bool :=
  let ruleResult := tagArticleWithRules title description
  if ruleResult.confidence ≥ AI_FALLBACK_THRESHOLD then (ruleResult, false)
  else if !useAI || !env.keyPresent then (ruleResult, false)
  else if !env.importOk then (ruleResult, false)
  else
    let aiResult := aiTagArticle env
    ({ topicSlug := aiResult.topicSlug, confidence := aiResult.confidence,
       source := TagSource.ai, matchedKeywords := none,
       reasoning := some aiResult.reasoning }, true)

/-! ## Store and ingestion (`src/db/schema.ts`, `src/lib/services/fetcher.ts`)

The datastore is embedded as explicit row lists; `Date` values as integer
epoch milliseconds. Random UUIDs are modelled as deterministic fresh
identifiers (nothing proved depends on their shape). Store reads/writes
that the code wraps in `try`/`catch` carry explicit success flags; the
flag false embeds that call throwing. -/

/-- A row of `topics` (schema.ts lines 80-87). -/
structure TopicRow where
  id : String
  name : String
  slug : String
  sortOrder : Nat
deriving Repr, DecidableEq

/-- A row of `articles` (schema.ts lines 93-127); `author` is always null
here and omitted. -/
structure ArticleRow where
  topicId : Option String
  sourceName : String
  title : String
  description : String
  content : String
  publisherName : String
  url : String
  urlHash : String
  imageUrl : Option String
  publishedAt : Int
deriving Repr, DecidableEq

/-- A row of `digests` (schema.ts lines 133-151); `createdAt` is unused by
the claims and omitted. Ids come from a fresh counter. -/
structure DigestRow where
  id : Nat
  type : String
  topicId : Option String
  date : Int
  title : Option String
  content : String
  model : Option String
deriving Repr, DecidableEq

/-- The datastore state. -/
structure DB where
  topics : List TopicRow
  articles : List ArticleRow
  digests : List DigestRow
  nextDigestId : Nat
deriving Repr, DecidableEq

/-- A feed item (`GNewsArticle`, part_005 lines 10-21, flattened). -/
structure GNewsArticle where
  title : String
  description : String
  content : String
  url : String
  image : Option String
  publishedAt : Int
  sourceName : String
deriving Repr, DecidableEq

/-- `FetchResult` (fetcher.ts lines 12-20). -/
structure FetchResult where
  fetched : Nat
  inserted : Nat
  duplicates : Nat
  taggedByRule : Nat
  taggedByAI : Nat
  untagged : Nat
  errors : List String
deriving Repr, DecidableEq

/-- Per-item external behaviour: whether the dedup lookup and the insert
store calls succeed, and the AI environment for this item's tagging. -/
structure ItemEnv where
  dupCheckOk : Bool
  insertOk : Bool
  ai : AIEnv
deriving Repr, DecidableEq

/-- `seedTopics` (fetcher.ts lines 29-47): upsert-by-slug of the taxonomy. -/
def seedTopics (st : DB) : DB :=
  getAllTopics.foldl
    (fun db t =>
      if db.topics.any (fun r => r.slug == t.slug) then db
      else
        { db with topics := db.topics ++
            [{ id := "topic-" ++ t.slug, name := t.name, slug := t.slug,
               sortOrder := t.sortOrder }] })
    st

/-- The tagging-stats update (fetcher.ts lines 140-148): bump exactly one
of `taggedByAI`/`taggedByRule`/`untagged` according to the tag result. -/
def statsBump (stats : FetchResult) (tr : TagResult) : FetchResult :=
  match tr.topicSlug with
  | some _ =>
      if tr.source == TagSource.ai then
        { stats with taggedByAI := stats.taggedByAI + 1 }
      else
        { stats with taggedByRule := stats.taggedByRule + 1 }
  | none => { stats with untagged := stats.untagged + 1 }

/-- `processArticle` (fetcher.ts lines 112-171). Returns the store, the
stats object (mutated in place by the JS code, so partial updates survive a
later throw), and `some message` when the item's processing threw. -/
def processArticle (st : DB) (topicMap : List (String × String))
    (stats : FetchResult) (a : GNewsArticle) (env : ItemEnv) (useAI : Bool) :
    DB × FetchResult × Option String :=
  if !env.dupCheckOk then (st, stats, some "store lookup failed")
  else
    let urlHash := hashUrl a.url
    if st.articles.any (fun r => r.urlHash == urlHash) then
      (st, { stats with duplicates := stats.duplicates + 1 }, none)
    else
      let tagResult := (tagArticle a.title (some a.description) useAI env.ai).1
      let topicId :=
        match tagResult.topicSlug with
        | some s => topicMap.lookup s
        | none => none
      let stats1 := statsBump stats tagResult
      if !env.insertOk then (st, stats1, some "insert failed")
      else
        let row : ArticleRow :=
          { topicId := topicId, sourceName := "gnews", title := a.title,
            description := a.description, content := a.content,
            publisherName := a.sourceName, url := a.url, urlHash := urlHash,
            imageUrl := a.image, publishedAt := a.publishedAt }
        ({ st with articles := st.articles ++ [row] },
         { stats1 with inserted := stats1.inserted + 1 }, none)

/-- Run-level external behaviour: whether seeding succeeds, what the feed
returns (`none` = the feed call throws), and whether the topic listing that
builds `topicMap` succeeds. Each fetched item carries its own `ItemEnv`. -/
structure RunEnv where
  seedOk : Bool
  feed : Option (List (GNewsArticle × ItemEnv))
  topicsQueryOk : Bool
deriving Repr, DecidableEq

/-- The empty stats object (fetcher.ts lines 66-74). -/
def emptyStats : FetchResult := ⟨0, 0, 0, 0, 0, 0, []⟩

/-- The per-item loop body (fetcher.ts lines 92-100): run `processArticle`,
catching its throw into one appended error string. -/
def processLoopStep (topicMap : List (String × String)) (useAI : Bool)
    (acc : DB × FetchResult) (ae : GNewsArticle × ItemEnv) : DB × FetchResult :=
  let r := processArticle acc.1 topicMap acc.2 ae.1 ae.2 useAI
  match r.2.2 with
  | none => (r.1, r.2.1)
  | some m =>
      (r.1,
       { r.2.1 with errors := r.2.1.errors ++
           ["Failed to process \"" ++ ae.1.title ++ "\": " ++ m] })

/-- `fetchAndStoreArticles` (fetcher.ts lines 61-107). The `maxArticles`
cap is applied by the feed itself, so it is part of `env.feed`. -/
def fetchAndStoreArticles (st : DB) (env : RunEnv) (useAI : Bool) :
    DB × FetchResult :=
  if !env.seedOk then
    (st, { emptyStats with errors := ["Fetch failed: store error"] })
  else
    let st1 := seedTopics st
    match env.feed with
    | none => (st1, { emptyStats with errors := ["Fetch failed: feed error"] })
    | some items =>
        let statsF := { emptyStats with fetched := items.length }
        if !env.topicsQueryOk then
          (st1, { statsF with errors := ["Fetch failed: store error"] })
        else
          let topicMap := st1.topics.map fun t => (t.slug, t.id)
          items.foldl (processLoopStep topicMap useAI) (st1, statsF)

/-! ## Digest synthesis (`src/lib/services/digest.ts`, `src/lib/services/ai.ts`)

`date.setHours(0,0,0,0)` truncates to midnight; embedded as flooring the
timestamp to a day multiple (witnesses use nonnegative times, where `Int`
division is exact flooring). The summarization collaborator
(`generateDigest` in ai.ts, lines 89-153) throws
`"Failed to generate digest"` on any failure of the text generation and
otherwise returns a title/content/model triple; it is embedded as an
environment holding `some` result or `none` for the throw. -/

/-- `DigestResult` (ai.ts lines 80-84). -/
structure DigestResult where
  title : String
  content : String
  model : String
deriving Repr, DecidableEq

/-- External behaviour of one synthesis call's summarization. -/
structure DigestEnv where
  gen : Option DigestResult
deriving Repr, DecidableEq

/-- `GenerateDigestResult` (digest.ts lines 10-15). -/
structure GenerateDigestResult where
  digestId : Nat
  title : String
  articleCount : Nat
  isNew : Bool
deriving Repr, DecidableEq

def msPerDay : Int := 86400000

def msPerHour : Int := 3600000

/-- `setHours(0,0,0,0)`. -/
def startOfDay (t : Int) : Int := t / msPerDay * msPerDay

/-- JS `x || "default"` on a nullable string column. -/
def jsOrDefault (s : Option String) (d : String) : String :=
  match s with
  | some t => if t == "" then d else t
  | none => d

/-- The existing-digest lookup predicate (digest.ts lines 44-50):
`type = daily`, topic bucket equality (null is its own bucket), same date. -/
def digestKeyMatches (topicId : Option String) (d : Int) (row : DigestRow) :
    Bool :=
  row.type == "daily" && row.topicId == topicId && row.date == d

/-- Candidate filter (digest.ts lines 65-67): same topic (or all when
global) and published inside the trailing window. -/
def candidateMatches (topicId : Option String) (since : Int)
    (a : ArticleRow) : Bool :=
  (match topicId with
   | some tid => a.topicId == some tid
   | none => true) && since ≤ a.publishedAt

/-- Insert into a list kept sorted by `publishedAt` descending. -/
def insertDesc (a : ArticleRow) : List ArticleRow → List ArticleRow
  | [] => [a]
  | b :: bs =>
      if b.publishedAt ≤ a.publishedAt then a :: b :: bs
      else b :: insertDesc a bs

/-- `orderBy desc(publishedAt)`. -/
def sortByPublishedDesc (l : List ArticleRow) : List ArticleRow :=
  l.foldr insertDesc []

/-- The digest row inserted by `generateDailyDigest` (digest.ts lines
108-119): type daily, the synthesis key, and the collaborator's output. -/
def newDigestRow (nid : Nat) (topicId : Option String) (digestDate : Int)
    (g : DigestResult) : DigestRow :=
  { id := nid, type := "daily", topicId := topicId, date := digestDate,
    title := some g.title, content := g.content, model := some g.model }

/-- The post-cache-check part of `generateDailyDigest` (digest.ts lines
61-127): candidate selection, summarization, conditional delete, insert.
`existingDigest` is the row the caller already looked up. -/
def generateDailyDigestCore (st : DB) (env : DigestEnv) (digestDate : Int)
    (topicId : Option String) (existingDigest : Option DigestRow)
    (forceRegenerate : Bool) (maxArticles : Nat) :
    DB × Bool × Except String (Option GenerateDigestResult) :=
  let since := digestDate - 24 * msPerHour
  let recentArticles :=
    (sortByPublishedDesc
      (st.articles.filter (candidateMatches topicId since))).take maxArticles
  if recentArticles.length = 0 then (st, false, .ok none)
  else
    match env.gen with
    | none => (st, true, .error "Failed to generate digest")
    | some g =>
        let st1 :=
          match existingDigest with
          | some e =>
              if forceRegenerate then
                { st with digests := st.digests.filter fun d => d.id ≠ e.id }
              else st
          | none => st
        let row : DigestRow := newDigestRow st1.nextDigestId topicId
          digestDate g
        ({ st1 with digests := st1.digests ++ [row],
                    nextDigestId := st1.nextDigestId + 1 },
         true, .ok (some
           { digestId := row.id,
             title := jsOrDefault row.title "Daily Digest",
             articleCount := recentArticles.length, isNew := true }))

/-- `generateDailyDigest` (digest.ts lines 31-127). Returns the store, a
flag recording whether the summarization collaborator was invoked, and the
call's outcome (`Except` embeds a propagated throw). -/
def generateDailyDigest (st : DB) (env : DigestEnv) (date : Int)
    (topicId : Option String) (forceRegenerate : Bool) (maxArticles : Nat) :
    DB × Bool × Except String (Option GenerateDigestResult) :=
  let digestDate := startOfDay date
  let existingDigest := st.digests.find? (digestKeyMatches topicId digestDate)
  match existingDigest, forceRegenerate with
  | some e, false =>
      (st, false, .ok (some
        { digestId := e.id, title := jsOrDefault e.title "Daily Digest",
          articleCount := 0, isNew := false }))
  | _, _ =>
      generateDailyDigestCore st env digestDate topicId existingDigest
        forceRegenerate maxArticles

/-- The per-(scope kind, target, date) uniqueness key
(`digests_type_topic_date_idx`, schema.ts line 148). -/
def digestKey (r : DigestRow) : String × Option String × Int :=
  (r.type, r.topicId, r.date)

/-- The store invariant: at most one digest per uniqueness key. -/
def uniqueDigests (st : DB) : Prop :=
  st.digests.Pairwise fun a b => digestKey a ≠ digestKey b

/-! ## Claims about the classification cascade (C3, C4) -/

/-- C3: for every title, optional description and AI flag, when the rule
confidence reaches the 0.33 threshold the cascade returns the rule result
unchanged and issues no collaborator call; and when the confidence is below
the threshold but AI is disabled or no credential is configured, it likewise
returns the rule result as-is with no collaborator call. -/
theorem c3_cascade_short_circuits (title : String) (description : Option String)
    (useAI : Bool) (env : AIEnv) :
    (AI_FALLBACK_THRESHOLD ≤ (tagArticleWithRules title description).confidence →
      tagArticle title description useAI env =
        (tagArticleWithRules title description, false)) ∧
    ((tagArticleWithRules title description).confidence < AI_FALLBACK_THRESHOLD →
      useAI = false ∨ env.keyPresent = false →
      tagArticle title description useAI env =
        (tagArticleWithRules title description, false)) := by
  simp only [tagArticle]
  refine ⟨fun h => ?_, fun h1 h2 => ?_⟩
  · rw [if_pos h]
  · rw [if_neg (not_le.mpr h1), if_pos ?_]
    rcases h2 with h | h <;> simp [h]

/-- Witness for C3: a saturated-confidence title short-circuits, and a
zero-confidence title with AI disabled also returns the rule result. -/
theorem c3_cascade_short_circuits_witness :
    tagArticle "chatgpt and openai ship gemini rival" none true
        ⟨true, true, none⟩ =
      (tagArticleWithRules "chatgpt and openai ship gemini rival" none,
       false) ∧
    tagArticle "mundane quarterly town report" none false ⟨true, true, none⟩ =
      (tagArticleWithRules "mundane quarterly town report" none, false) := by
  constructor
  · exact (c3_cascade_short_circuits _ _ _ _).1 (by decide)
  · exact (c3_cascade_short_circuits _ _ _ _).2 (by decide) (Or.inl rfl)

/-- C4 counterexample: with low rule confidence, AI enabled and configured,
and the collaborator call failing, the cascade returns a `source = ai`
null result — not the original rule result, whose provenance is `rule`. -/
theorem c4_counterexample :
    (tagArticle "Company announces new product" none true
        ⟨true, true, none⟩).1.source = TagSource.ai ∧
    (tagArticleWithRules "Company announces new product" none).source =
      TagSource.rule ∧
    (tagArticle "Company announces new product" none true
        ⟨true, true, none⟩).1 ≠
      tagArticleWithRules "Company announces new product" none := by
  decide

/-- C4 amended: when the cascade escalates and the collaborator call fails,
`aiTagArticle`'s own catch absorbs the failure, so `tagArticle` returns
topic none, confidence 0, provenance `ai`, reasoning "AI tagging failed";
no error propagates. The original rule result is returned only when the AI
module itself fails to load, in which case no collaborator call is made. -/
theorem c4_ai_failure_handling (title : String) (description : Option String)
    (env : AIEnv)
    (hconf : (tagArticleWithRules title description).confidence <
      AI_FALLBACK_THRESHOLD)
    (hkey : env.keyPresent = true) :
    (env.importOk = true → env.callResult = none →
      tagArticle title description true env =
        ({ topicSlug := none, confidence := 0, source := TagSource.ai,
           matchedKeywords := none,
           reasoning := some "AI tagging failed" }, true)) ∧
    (env.importOk = false →
      tagArticle title description true env =
        (tagArticleWithRules title description, false)) := by
  simp only [tagArticle]
  rw [if_neg (not_le.mpr hconf)]
  refine ⟨fun h1 h2 => ?_, fun h1 => ?_⟩
  · rw [if_neg (by simp [hkey]), if_neg (by simp [h1])]
    simp [aiTagArticle, h2]
  · rw [if_neg (by simp [hkey]), if_pos (by simp [h1])]

/-- Witness for C4's amended theorem at a concrete no-keyword title. -/
theorem c4_ai_failure_handling_witness :
    tagArticle "mundane town hall schedule" none true ⟨true, true, none⟩ =
      ({ topicSlug := none, confidence := 0, source := TagSource.ai,
         matchedKeywords := none,
         reasoning := some "AI tagging failed" }, true) ∧
    tagArticle "mundane town hall schedule" none true ⟨true, false, none⟩ =
      (tagArticleWithRules "mundane town hall schedule" none, false) := by
  constructor
  · exact (c4_ai_failure_handling _ none _ (by decide) rfl).1 rfl rfl
  · exact (c4_ai_failure_handling _ none _ (by decide) rfl).2 rfl

/-! ## Claims about digest synthesis (C6, C8, C9) -/

/-- C6: for a (scope, date) whose digest already exists, both of two
successive non-forced calls return the very same cached result — same
digest identity, `articleCount = 0`, `isNew = false` — leave the store
untouched, and never invoke the summarizer. -/
theorem c6_digest_cache_hit_idempotent (st : DB) (env1 env2 : DigestEnv)
    (date : Int) (topicId : Option String) (max1 max2 : Nat) (e : DigestRow)
    (hfind : st.digests.find? (digestKeyMatches topicId (startOfDay date)) =
      some e) :
    generateDailyDigest st env1 date topicId false max1 =
      (st, false, .ok (some
        { digestId := e.id, title := jsOrDefault e.title "Daily Digest",
          articleCount := 0, isNew := false })) ∧
    generateDailyDigest (generateDailyDigest st env1 date topicId false max1).1
        env2 date topicId false max2 =
      (st, false, .ok (some
        { digestId := e.id, title := jsOrDefault e.title "Daily Digest",
          articleCount := 0, isNew := false })) := by
  have h1 : generateDailyDigest st env1 date topicId false max1 =
      (st, false, .ok (some
        { digestId := e.id, title := jsOrDefault e.title "Daily Digest",
          articleCount := 0, isNew := false })) := by
    simp only [generateDailyDigest, hfind]
  refine ⟨h1, ?_⟩
  rw [h1]
  simp only [generateDailyDigest, hfind]

/-- Witness for C6 on a one-digest store. -/
theorem c6_digest_cache_hit_idempotent_witness :
    generateDailyDigest ⟨[], [], [⟨5, "daily", none, 0, some "T", "body",
        some "gpt-4o"⟩], 6⟩ ⟨none⟩ 0 none false 70 =
      (⟨[], [], [⟨5, "daily", none, 0, some "T", "body", some "gpt-4o"⟩], 6⟩,
       false,
       .ok (some { digestId := 5, title := "T", articleCount := 0,
                   isNew := false })) := by
  have h := (c6_digest_cache_hit_idempotent
    ⟨[], [], [⟨5, "daily", none, 0, some "T", "body", some "gpt-4o"⟩], 6⟩
    ⟨none⟩ ⟨none⟩ 0 none 70 70
    ⟨5, "daily", none, 0, some "T", "body", some "gpt-4o"⟩ rfl).1
  simpa [jsOrDefault] using h

/-- C8 counterexample: a (scope, date) with zero candidate items in the
window but a pre-existing digest and `forceRegenerate = false` returns the
cached digest, not none. -/
theorem c8_counterexample :
    (⟨[], [], [⟨5, "daily", none, 0, some "T", "body", some "m"⟩], 6⟩ :
        DB).articles.filter
      (candidateMatches none (startOfDay 0 - 24 * msPerHour)) = [] ∧
    (generateDailyDigest
        ⟨[], [], [⟨5, "daily", none, 0, some "T", "body", some "m"⟩], 6⟩
        ⟨none⟩ 0 none false 70).2.2 ≠ Except.ok none := by
  refine ⟨rfl, fun h => ?_⟩
  have h2 : (generateDailyDigest
      ⟨[], [], [⟨5, "daily", none, 0, some "T", "body", some "m"⟩], 6⟩
      ⟨none⟩ 0 none false 70).2.2 =
      Except.ok (some { digestId := 5, title := "T", articleCount := 0,
                        isNew := false }) := rfl
  rw [h2] at h
  exact Option.noConfusion (Except.ok.inj h)

/-- C8 amended: provided no digest already exists for the (scope, date)
key — or regeneration is forced — zero candidate items make `synthesize`
return none, leave the store unchanged, delete nothing, and skip the
summarization call. -/
theorem c8_zero_candidates_noop (st : DB) (env : DigestEnv) (date : Int)
    (topicId : Option String) (force : Bool) (maxArticles : Nat)
    (hpath : st.digests.find? (digestKeyMatches topicId (startOfDay date)) =
      none ∨ force = true)
    (hzero : st.articles.filter
      (candidateMatches topicId (startOfDay date - 24 * msPerHour)) = []) :
    generateDailyDigest st env date topicId force maxArticles =
      (st, false, .ok none) := by
  simp only [generateDailyDigest, generateDailyDigestCore, hzero]
  rcases hpath with hfind | hforce
  · rw [hfind]
    cases force <;> simp [sortByPublishedDesc]
  · subst hforce
    cases hfind : st.digests.find? (digestKeyMatches topicId (startOfDay date)) <;>
      simp [sortByPublishedDesc]

/-- Witness for C8's amended theorem on the empty store. -/
theorem c8_zero_candidates_noop_witness :
    generateDailyDigest ⟨[], [], [], 0⟩ ⟨none⟩ 0 none false 70 =
      (⟨[], [], [], 0⟩, false, .ok none) :=
  c8_zero_candidates_noop ⟨[], [], [], 0⟩ ⟨none⟩ 0 none false 70
    (Or.inl rfl) rfl

/-- C9: whenever the summarization collaborator fails, the synthesis call
leaves the store exactly as it was (no partial row, no deletion of the
pre-existing digest even under force), and if the collaborator was invoked
the error propagates to the caller. -/
theorem c9_summarizer_failure_safe (st : DB) (env : DigestEnv) (date : Int)
    (topicId : Option String) (force : Bool) (maxArticles : Nat)
    (hfail : env.gen = none) :
    (generateDailyDigest st env date topicId force maxArticles).1 = st ∧
    ((generateDailyDigest st env date topicId force maxArticles).2.1 = true →
      (generateDailyDigest st env date topicId force maxArticles).2.2 =
        .error "Failed to generate digest") := by
  simp only [generateDailyDigest, generateDailyDigestCore, hfail]
  cases hfind : st.digests.find? (digestKeyMatches topicId (startOfDay date)) <;>
    cases force <;>
      split <;> (try split_ifs) <;> simp

/-- Witness for C9: one candidate article, failing summarizer. -/
theorem c9_summarizer_failure_safe_witness :
    (generateDailyDigest
        ⟨[], [⟨none, "gnews", "t", "d", "c", "p", "u", "h", none, 0⟩], [], 0⟩
        ⟨none⟩ 0 none false 70).1 =
      ⟨[], [⟨none, "gnews", "t", "d", "c", "p", "u", "h", none, 0⟩], [], 0⟩ ∧
    (generateDailyDigest
        ⟨[], [⟨none, "gnews", "t", "d", "c", "p", "u", "h", none, 0⟩], [], 0⟩
        ⟨none⟩ 0 none false 70).2.2 = .error "Failed to generate digest" := by
  refine ⟨(c9_summarizer_failure_safe _ ⟨none⟩ 0 none false 70 rfl).1, ?_⟩
  exact (c9_summarizer_failure_safe _ ⟨none⟩ 0 none false 70 rfl).2 rfl

/-! ## Claims about ingestion (C5, C10) -/

/-- `statsBump` touches only the tag counters. -/
theorem statsBump_counters (stats : FetchResult) (tr : TagResult) :
    (statsBump stats tr).fetched = stats.fetched ∧
    (statsBump stats tr).inserted = stats.inserted ∧
    (statsBump stats tr).duplicates = stats.duplicates ∧
    (statsBump stats tr).errors = stats.errors := by
  unfold statsBump
  rcases htr : tr.topicSlug with _ | s <;> simp only [htr] <;>
    (try split) <;> simp

/-- C5: a feed item whose fingerprint is fresh gets inserted; running the
very same item again right after increments only `duplicates`, leaves
`inserted` unchanged, and performs no further processing — the store is
untouched and no counter other than `duplicates` moves. -/
theorem c5_duplicate_second_ingestion (st : DB)
    (topicMap : List (String × String)) (stats : FetchResult)
    (a : GNewsArticle) (env1 env2 : ItemEnv) (useAI1 useAI2 : Bool)
    (hfresh : st.articles.any (fun r => r.urlHash == hashUrl a.url) = false)
    (h1d : env1.dupCheckOk = true) (h1i : env1.insertOk = true)
    (h2d : env2.dupCheckOk = true) :
    (processArticle st topicMap stats a env1 useAI1).2.1.inserted =
      stats.inserted + 1 ∧
    (processArticle st topicMap stats a env1 useAI1).2.2 = none ∧
    (processArticle (processArticle st topicMap stats a env1 useAI1).1
        topicMap (processArticle st topicMap stats a env1 useAI1).2.1 a env2
        useAI2) =
      ((processArticle st topicMap stats a env1 useAI1).1,
       { (processArticle st topicMap stats a env1 useAI1).2.1 with
         duplicates :=
           (processArticle st topicMap stats a env1 useAI1).2.1.duplicates +
             1 },
       none) := by
  simp only [processArticle, h1d, h1i, h2d, hfresh, Bool.not_true,
    Bool.false_eq_true, if_false, List.any_append, List.any_cons,
    List.any_nil, beq_self_eq_true, Bool.true_or, Bool.or_false, if_true]
  refine ⟨(statsBump_counters stats _).2.1 ▸ rfl, trivial, by simp⟩

/-- Witness for C5 on an empty store and a concrete feed item. -/
theorem c5_duplicate_second_ingestion_witness :
    (processArticle ⟨[], [], [], 0⟩ [] emptyStats
        ⟨"t", "d", "c", "http://x.com", none, 0, "src"⟩
        ⟨true, true, ⟨false, true, none⟩⟩ false).2.1.inserted =
      emptyStats.inserted + 1 ∧
    (processArticle ⟨[], [], [], 0⟩ [] emptyStats
        ⟨"t", "d", "c", "http://x.com", none, 0, "src"⟩
        ⟨true, true, ⟨false, true, none⟩⟩ false).2.2 = none ∧
    (processArticle (processArticle ⟨[], [], [], 0⟩ [] emptyStats
        ⟨"t", "d", "c", "http://x.com", none, 0, "src"⟩
        ⟨true, true, ⟨false, true, none⟩⟩ false).1 []
        (processArticle ⟨[], [], [], 0⟩ [] emptyStats
          ⟨"t", "d", "c", "http://x.com", none, 0, "src"⟩
          ⟨true, true, ⟨false, true, none⟩⟩ false).2.1
        ⟨"t", "d", "c", "http://x.com", none, 0, "src"⟩
        ⟨true, true, ⟨false, true, none⟩⟩ false) =
      ((processArticle ⟨[], [], [], 0⟩ [] emptyStats
          ⟨"t", "d", "c", "http://x.com", none, 0, "src"⟩
          ⟨true, true, ⟨false, true, none⟩⟩ false).1,
       { (processArticle ⟨[], [], [], 0⟩ [] emptyStats
            ⟨"t", "d", "c", "http://x.com", none, 0, "src"⟩
            ⟨true, true, ⟨false, true, none⟩⟩ false).2.1 with
         duplicates :=
           (processArticle ⟨[], [], [], 0⟩ [] emptyStats
              ⟨"t", "d", "c", "http://x.com", none, 0, "src"⟩
              ⟨true, true, ⟨false, true, none⟩⟩ false).2.1.duplicates + 1 },
       none) :=
  c5_duplicate_second_ingestion ⟨[], [], [], 0⟩ [] emptyStats
    ⟨"t", "d", "c", "http://x.com", none, 0, "src"⟩
    ⟨true, true, ⟨false, true, none⟩⟩ ⟨true, true, ⟨false, true, none⟩⟩
    false false rfl rfl rfl rfl

/-- Each loop iteration settles exactly one item: `fetched` is untouched
and exactly one of `inserted`, `duplicates`, or a new error entry shows up. -/
theorem processLoopStep_outcome (topicMap : List (String × String))
    (useAI : Bool) (acc : DB × FetchResult) (ae : GNewsArticle × ItemEnv) :
    ((processLoopStep topicMap useAI acc ae).2.fetched = acc.2.fetched) ∧
    ((processLoopStep topicMap useAI acc ae).2.inserted +
        (processLoopStep topicMap useAI acc ae).2.duplicates +
        (processLoopStep topicMap useAI acc ae).2.errors.length =
      acc.2.inserted + acc.2.duplicates + acc.2.errors.length + 1) := by
  obtain ⟨db, stats⟩ := acc
  obtain ⟨a, env⟩ := ae
  simp only [processLoopStep, processArticle]
  by_cases hd : env.dupCheckOk
  · simp only [hd, Bool.not_true, Bool.false_eq_true, if_false]
    by_cases hdup : db.articles.any (fun r => r.urlHash == hashUrl a.url)
    · simp [hdup]; omega
    · simp only [hdup, Bool.false_eq_true, if_false]
      by_cases hi : env.insertOk
      · simp only [hi, Bool.not_true, Bool.false_eq_true, if_false]
        have h := statsBump_counters stats
          (tagArticle a.title (some a.description) useAI env.ai).1
        simp [h.2.1, h.2.2.1, h.2.2.2]
        omega
      · simp only [hi, Bool.not_false, if_true]
        have h := statsBump_counters stats
          (tagArticle a.title (some a.description) useAI env.ai).1
        simp [h.1, h.2.1, h.2.2.1, h.2.2.2]
        omega
  · simp [hd]; omega

/-- The item loop preserves `fetched` and settles each item exactly once. -/
theorem processLoop_outcome (topicMap : List (String × String)) (useAI : Bool) :
    ∀ (items : List (GNewsArticle × ItemEnv)) (acc : DB × FetchResult),
      ((items.foldl (processLoopStep topicMap useAI) acc).2.fetched =
        acc.2.fetched) ∧
      ((items.foldl (processLoopStep topicMap useAI) acc).2.inserted +
          (items.foldl (processLoopStep topicMap useAI) acc).2.duplicates +
          (items.foldl (processLoopStep topicMap useAI) acc).2.errors.length =
        acc.2.inserted + acc.2.duplicates + acc.2.errors.length +
          items.length) := by
  intro items
  induction items with
  | nil => intro acc; simp
  | cons ae rest ih =>
      intro acc
      have hstep := processLoopStep_outcome topicMap useAI acc ae
      have hrest := ih (processLoopStep topicMap useAI acc ae)
      simp only [List.foldl_cons, List.length_cons]
      refine ⟨by rw [hrest.1, hstep.1], ?_⟩
      rw [hrest.2, hstep.2]
      omega

/-- C10 counterexample: the feed fetch succeeds (two items fetched) but the
pre-loop topic listing fails, so the run ends with `fetched = 2` yet
`inserted + duplicates + errors = 1`. -/
theorem c10_counterexample :
    (⟨true, some [(⟨"t1", "d", "c", "u1", none, 0, "s"⟩,
        ⟨true, true, ⟨false, true, none⟩⟩),
       (⟨"t2", "d", "c", "u2", none, 0, "s"⟩,
        ⟨true, true, ⟨false, true, none⟩⟩)], false⟩ : RunEnv).feed ≠ none ∧
    (fetchAndStoreArticles ⟨[], [], [], 0⟩
        ⟨true, some [(⟨"t1", "d", "c", "u1", none, 0, "s"⟩,
            ⟨true, true, ⟨false, true, none⟩⟩),
          (⟨"t2", "d", "c", "u2", none, 0, "s"⟩,
            ⟨true, true, ⟨false, true, none⟩⟩)], false⟩ true).2.fetched = 2 ∧
    (fetchAndStoreArticles ⟨[], [], [], 0⟩
        ⟨true, some [(⟨"t1", "d", "c", "u1", none, 0, "s"⟩,
            ⟨true, true, ⟨false, true, none⟩⟩),
          (⟨"t2", "d", "c", "u2", none, 0, "s"⟩,
            ⟨true, true, ⟨false, true, none⟩⟩)], false⟩ true).2.inserted +
      (fetchAndStoreArticles ⟨[], [], [], 0⟩
        ⟨true, some [(⟨"t1", "d", "c", "u1", none, 0, "s"⟩,
            ⟨true, true, ⟨false, true, none⟩⟩),
          (⟨"t2", "d", "c", "u2", none, 0, "s"⟩,
            ⟨true, true, ⟨false, true, none⟩⟩)], false⟩ true).2.duplicates +
      (fetchAndStoreArticles ⟨[], [], [], 0⟩
        ⟨true, some [(⟨"t1", "d", "c", "u1", none, 0, "s"⟩,
            ⟨true, true, ⟨false, true, none⟩⟩),
          (⟨"t2", "d", "c", "u2", none, 0, "s"⟩,
            ⟨true, true, ⟨false, true, none⟩⟩)], false⟩ true).2.errors.length
      = 1 := by
  refine ⟨fun h => Option.noConfusion h, rfl, rfl⟩

/-- C10 amended: when seeding, the feed fetch and the pre-loop topic
listing all succeed, every fetched item lands in exactly one bucket, so
`fetched = inserted + duplicates + errors`. -/
theorem c10_item_outcome_partition (st : DB)
    (items : List (GNewsArticle × ItemEnv)) (useAI : Bool) :
    (fetchAndStoreArticles st ⟨true, some items, true⟩ useAI).2.fetched =
      items.length ∧
    (fetchAndStoreArticles st ⟨true, some items, true⟩ useAI).2.fetched =
      (fetchAndStoreArticles st ⟨true, some items, true⟩ useAI).2.inserted +
      (fetchAndStoreArticles st ⟨true, some items, true⟩ useAI).2.duplicates +
      (fetchAndStoreArticles st ⟨true, some items, true⟩ useAI).2.errors.length
    := by
  simp only [fetchAndStoreArticles, Bool.not_true, Bool.false_eq_true,
    if_false]
  have h := processLoop_outcome ((seedTopics st).topics.map fun t =>
    (t.slug, t.id)) useAI items
    (seedTopics st, { emptyStats with fetched := items.length })
  refine ⟨by rw [h.1], ?_⟩
  rw [h.1, h.2]
  simp [emptyStats]

/-! ## Claim about the rule classifier (C2) -/

/-- The threshold literal is the JS `0.33`. -/
theorem AI_FALLBACK_THRESHOLD_eq : AI_FALLBACK_THRESHOLD = 33 / 100 := by
  rw [AI_FALLBACK_THRESHOLD, Rat.mkRat_eq_div]
  norm_num

/-- The confidence expression is the JS `matchedKeywords.length / 3`
capped, i.e. `min (n / 3) 1` over `ℚ`. -/
theorem ruleConfidence_eq (n : Nat) :
    min (mkRat n 3) 1 = min ((n : ℚ) / 3) 1 := by
  rw [Rat.mkRat_eq_div]
  norm_num

/-- `ruleStep` in terms of `matchCount` and `mkBest`. -/
theorem ruleStep_eq (text : String) (best : TagResult)
    (sk : String × List String) :
    ruleStep text best sk =
      if bestLen best < matchCount text sk then mkBest text sk else best :=
  rfl

theorem bestLen_mkBest (text : String) (sk : String × List String) :
    bestLen (mkBest text sk) = matchCount text sk :=
  rfl

/-- The strict-improvement fold keeps the accumulator unless some topic
strictly beats it, in which case the result is the first topic attaining
the maximal match count. -/
theorem ruleFold_charact (text : String) :
    ∀ (l : List (String × List String)) (b : TagResult),
      (l.foldl (ruleStep text) b = b ∧
        ∀ sk ∈ l, matchCount text sk ≤ bestLen b) ∨
      (∃ l₁ sk l₂, l = l₁ ++ sk :: l₂ ∧
        l.foldl (ruleStep text) b = mkBest text sk ∧
        bestLen b < matchCount text sk ∧
        (∀ p ∈ l₁, matchCount text p < matchCount text sk) ∧
        (∀ p ∈ l₂, matchCount text p ≤ matchCount text sk)) := by
  intro l
  induction l with
  | nil => intro b; left; simp
  | cons sk0 rest ih =>
      intro b
      rw [List.foldl_cons, ruleStep_eq]
      by_cases h0 : bestLen b < matchCount text sk0
      · rw [if_pos h0]
        rcases ih (mkBest text sk0) with ⟨heq, hle⟩ |
          ⟨l₁, sk, l₂, hsplit, heq, hlt, hl₁, hl₂⟩
        · right
          refine ⟨[], sk0, rest, by simp, heq, h0, by simp, ?_⟩
          simpa [bestLen_mkBest] using hle
        · right
          rw [bestLen_mkBest] at hlt
          refine ⟨sk0 :: l₁, sk, l₂, by simp [hsplit], heq,
            lt_trans h0 hlt, ?_, hl₂⟩
          intro p hp
          rcases List.mem_cons.mp hp with rfl | hp
          · exact hlt
          · exact hl₁ p hp
      · rw [if_neg h0]
        rcases ih b with ⟨heq, hle⟩ |
          ⟨l₁, sk, l₂, hsplit, heq, hlt, hl₁, hl₂⟩
        · left
          refine ⟨heq, fun p hp => ?_⟩
          rcases List.mem_cons.mp hp with rfl | hp
          · omega
          · exact hle p hp
        · right
          refine ⟨sk0 :: l₁, sk, l₂, by simp [hsplit], heq, hlt, ?_, hl₂⟩
          intro p hp
          rcases List.mem_cons.mp hp with rfl | hp
          · omega
          · exact hl₁ p hp

/-- C2: the Rule Classifier always carries provenance `rule`; with no
keyword match anywhere it returns topic none with confidence 0; otherwise
it returns the first topic attaining the strictly greatest match count,
with confidence `min(matchCount / 3, 1)`, which is exactly 1 as soon as
`matchCount ≥ 3`. -/
theorem c2_rule_classifier (title : String) (description : Option String) :
    (tagArticleWithRules title description).source = TagSource.rule ∧
    ((∀ sk ∈ TOPIC_KEYWORDS,
        matchCount (ruleText title description) sk = 0) →
      (tagArticleWithRules title description).topicSlug = none ∧
      (tagArticleWithRules title description).confidence = 0) ∧
    ((∃ sk ∈ TOPIC_KEYWORDS,
        0 < matchCount (ruleText title description) sk) →
      ∃ l₁ sk l₂, TOPIC_KEYWORDS = l₁ ++ sk :: l₂ ∧
        (tagArticleWithRules title description).topicSlug = some sk.1 ∧
        (tagArticleWithRules title description).confidence =
          min ((matchCount (ruleText title description) sk : ℚ) / 3) 1 ∧
        (3 ≤ matchCount (ruleText title description) sk →
          (tagArticleWithRules title description).confidence = 1) ∧
        (∀ p ∈ l₁, matchCount (ruleText title description) p <
          matchCount (ruleText title description) sk) ∧
        (∀ p ∈ l₂, matchCount (ruleText title description) p ≤
          matchCount (ruleText title description) sk)) := by
  have hchar := ruleFold_charact (ruleText title description)
    TOPIC_KEYWORDS ruleInit
  have hrw : tagArticleWithRules title description =
      TOPIC_KEYWORDS.foldl (ruleStep (ruleText title description)) ruleInit :=
    rfl
  rcases hchar with ⟨heq, hle⟩ | ⟨l₁, sk, l₂, hsplit, heq, hlt, hl₁, hl₂⟩
  · rw [hrw, heq]
    refine ⟨rfl, fun _ => ⟨rfl, rfl⟩, fun hex => ?_⟩
    obtain ⟨sk, hmem, hpos⟩ := hex
    have := hle sk hmem
    simp only [ruleInit, bestLen, Option.getD_some, List.length_nil] at this
    omega
  · rw [hrw, heq]
    refine ⟨rfl, fun hall => ?_, fun _ => ?_⟩
    · have hmem : sk ∈ TOPIC_KEYWORDS := by
        rw [hsplit]; exact List.mem_append_right _ (List.mem_cons_self _ _)
      have := hall sk hmem
      simp only [ruleInit, bestLen, Option.getD_some, List.length_nil] at hlt
      omega
    · refine ⟨l₁, sk, l₂, hsplit, rfl, ?_, ?_, hl₁, hl₂⟩
      · exact ruleConfidence_eq _
      · intro h3
        have h13 : (1 : ℚ) ≤ (matchCount (ruleText title description) sk : ℚ) / 3 := by
          rw [le_div_iff₀ (by norm_num : (0:ℚ) < 3)]
          simpa using (by exact_mod_cast h3 :
            (3 : ℚ) ≤ (matchCount (ruleText title description) sk : ℚ))
        show min (mkRat (matchCount (ruleText title description) sk) 3) 1 = 1
        rw [ruleConfidence_eq]
        exact min_eq_right h13

/-- Witness for C2: a three-keyword AI title saturates at confidence 1 with
provenance rule, and a no-keyword title returns topic none, confidence 0. -/
theorem c2_rule_classifier_witness :
    (tagArticleWithRules "chatgpt openai claude" none).source =
      TagSource.rule ∧
    (tagArticleWithRules "xyzzy plugh" none).topicSlug = none ∧
    (tagArticleWithRules "xyzzy plugh" none).confidence = 0 ∧
    (∃ l₁ sk l₂, TOPIC_KEYWORDS = l₁ ++ sk :: l₂ ∧
      (tagArticleWithRules "chatgpt openai claude" none).topicSlug =
        some sk.1 ∧
      (tagArticleWithRules "chatgpt openai claude" none).confidence =
        min ((matchCount (ruleText "chatgpt openai claude" none) sk : ℚ) / 3)
          1 ∧
      (3 ≤ matchCount (ruleText "chatgpt openai claude" none) sk →
        (tagArticleWithRules "chatgpt openai claude" none).confidence = 1) ∧
      (∀ p ∈ l₁, matchCount (ruleText "chatgpt openai claude" none) p <
        matchCount (ruleText "chatgpt openai claude" none) sk) ∧
      (∀ p ∈ l₂, matchCount (ruleText "chatgpt openai claude" none) p ≤
        matchCount (ruleText "chatgpt openai claude" none) sk)) := by
  refine ⟨(c2_rule_classifier "chatgpt openai claude" none).1, ?_, ?_, ?_⟩
  · exact ((c2_rule_classifier "xyzzy plugh" none).2.1 (by decide)).1
  · exact ((c2_rule_classifier "xyzzy plugh" none).2.1 (by decide)).2
  · exact (c2_rule_classifier "chatgpt openai claude" none).2.2 (by decide)

/-! ## Claim about forced regeneration and digest uniqueness (C7) -/

/-- The lookup predicate decides equality with the uniqueness key. -/
theorem digestKeyMatches_iff (t : Option String) (d : Int) (row : DigestRow) :
    digestKeyMatches t d row = true ↔ digestKey row = ("daily", t, d) := by
  simp [digestKeyMatches, digestKey, Prod.ext_iff, and_assoc]

/-- Under the uniqueness invariant, the found digest is the only row with
its key. -/
theorem filter_key_single (t : Option String) (d : Int) :
    ∀ (l : List DigestRow),
      l.Pairwise (fun a b => digestKey a ≠ digestKey b) →
      ∀ e, l.find? (digestKeyMatches t d) = some e →
        l.filter (digestKeyMatches t d) = [e] := by
  intro l
  induction l with
  | nil => intro _ e he; cases he
  | cons a rest ih =>
      intro hpw e he
      rcases List.pairwise_cons.mp hpw with ⟨hka, hrest⟩
      by_cases hpa : digestKeyMatches t d a = true
      · rw [List.find?_cons_of_pos _ hpa] at he
        obtain rfl : a = e := by injection he
        rw [List.filter_cons_of_pos hpa]
        have hnone : rest.filter (digestKeyMatches t d) = [] := by
          rw [List.filter_eq_nil_iff]
          intro b hb hpb
          exact hka b hb ((digestKeyMatches_iff t d b).mp hpb ▸
            ((digestKeyMatches_iff t d a).mp hpa).symm ▸ rfl)
        rw [hnone]
      · rw [List.find?_cons_of_neg _ hpa] at he
        rw [List.filter_cons_of_neg hpa]
        exact ih hrest e he

/-- Any two rows of a pairwise-distinct-key list sharing a key are equal. -/
theorem eq_of_key_eq (l : List DigestRow)
    (hpw : l.Pairwise fun a b => digestKey a ≠ digestKey b)
    (x y : DigestRow) (hx : x ∈ l) (hy : y ∈ l)
    (hkey : digestKey x = digestKey y) : x = y := by
  by_contra hne
  exact (hpw.forall (fun a b h => (h ∘ Eq.symm)) hx hy hne) hkey

/-- Any two rows of a pairwise-distinct-id list sharing an id are equal. -/
theorem eq_of_id_eq (l : List DigestRow)
    (hpw : l.Pairwise fun a b => a.id ≠ b.id)
    (x y : DigestRow) (hx : x ∈ l) (hy : y ∈ l)
    (hid : x.id = y.id) : x = y := by
  by_contra hne
  exact (hpw.forall (fun a b h => (h ∘ Eq.symm)) hx hy hne) hid

/-- Every synthesis call preserves the at-most-one-digest-per-key
invariant. -/
theorem generateDailyDigestCore_preserves_unique (st : DB) (env : DigestEnv)
    (digestDate : Int) (topicId : Option String)
    (existing : Option DigestRow) (force : Bool) (maxArticles : Nat)
    (huniq : uniqueDigests st)
    (hcase : (∀ d ∈ st.digests,
        digestKeyMatches topicId digestDate d = false) ∨
      (∃ e, existing = some e ∧ force = true ∧ e ∈ st.digests ∧
        digestKeyMatches topicId digestDate e = true)) :
    uniqueDigests (generateDailyDigestCore st env digestDate topicId existing
      force maxArticles).1 := by
  unfold uniqueDigests at huniq ⊢
  unfold generateDailyDigestCore
  simp only
  split
  · exact huniq
  · cases hgen : env.gen with
    | none => exact huniq
    | some g =>
        simp only
        rcases hcase with hnone | ⟨e, hex, hf, hmem, hkey⟩
        · have hred : ∀ (st1 : DB), st1.digests.Sublist st.digests →
              List.Pairwise (fun a b => digestKey a ≠ digestKey b)
                (st1.digests ++ [newDigestRow st1.nextDigestId topicId
                  digestDate g]) := by
            intro st1 hsub
            rw [List.pairwise_append]
            refine ⟨huniq.sublist hsub, by simp, ?_⟩
            intro x hx y hy
            simp only [List.mem_singleton] at hy
            subst hy
            intro hk
            have hpk : digestKeyMatches topicId digestDate x = true :=
              (digestKeyMatches_iff _ _ x).mpr (by rw [hk]; rfl)
            rw [hnone x (hsub.subset hx)] at hpk
            cases hpk
          cases existing with
          | none => exact hred st (List.Sublist.refl _)
          | some e' =>
              cases force with
              | false => exact hred st (List.Sublist.refl _)
              | true =>
                  exact hred { st with digests :=
                      st.digests.filter fun d => d.id ≠ e'.id }
                    (List.filter_sublist _)
        · subst hex
          subst hf
          simp only [if_pos rfl]
          rw [List.pairwise_append]
          refine ⟨huniq.sublist (List.filter_sublist _), by simp, ?_⟩
          intro x hx y hy
          simp only [List.mem_singleton] at hy
          subst hy
          obtain ⟨hxmem, hxid⟩ := List.mem_filter.mp hx
          intro hk
          have hxkey : digestKey x = ("daily", topicId, digestDate) := by
            rw [hk]; rfl
          have hxe : x = e := eq_of_key_eq st.digests huniq x e hxmem hmem
            (hxkey.trans ((digestKeyMatches_iff _ _ e).mp hkey).symm)
          subst hxe
          simp at hxid

/-- Every synthesis call preserves the at-most-one-digest-per-key
invariant. -/
theorem generateDailyDigest_preserves_unique (st : DB) (env : DigestEnv)
    (date : Int) (topicId : Option String) (force : Bool) (maxArticles : Nat)
    (huniq : uniqueDigests st) :
    uniqueDigests (generateDailyDigest st env date topicId force
      maxArticles).1 := by
  unfold generateDailyDigest
  simp only
  cases hfind : st.digests.find? (digestKeyMatches topicId (startOfDay date))
    with
  | none =>
      have hnone := List.find?_eq_none.mp hfind
      cases force <;>
        exact generateDailyDigestCore_preserves_unique st env _ topicId none _
          maxArticles huniq
          (Or.inl fun d hd => Bool.not_eq_true _ ▸ by
            simpa using hnone d hd)
  | some e =>
      cases force with
      | false => exact huniq
      | true =>
          exact generateDailyDigestCore_preserves_unique st env _ topicId
            (some e) true maxArticles huniq
            (Or.inr ⟨e, rfl, rfl, List.mem_of_find?_eq_some hfind,
              List.find?_some hfind⟩)

/-- C7: with the store invariants (unique keys, unique ids), forced
regeneration over an existing digest and a nonempty candidate set deletes
the old row and inserts exactly one new row for the (daily, target, date)
key, carrying the collaborator's new content and a fresh id; rows under
every other uniqueness key (in particular the null-target bucket versus any
topic bucket) are untouched; and every synthesis call preserves the
at-most-one-digest-per-key invariant. -/
theorem c7_force_regenerate_exactly_one (st : DB) (env : DigestEnv)
    (date : Int) (topicId : Option String) (maxArticles : Nat)
    (e : DigestRow) (g : DigestResult)
    (huniq : uniqueDigests st)
    (hids : st.digests.Pairwise fun a b => a.id ≠ b.id)
    (hfind : st.digests.find? (digestKeyMatches topicId (startOfDay date)) =
      some e)
    (hcand : ((sortByPublishedDesc (st.articles.filter
        (candidateMatches topicId (startOfDay date - 24 * msPerHour)))).take
        maxArticles).length ≠ 0)
    (hgen : env.gen = some g) :
    ((generateDailyDigest st env date topicId true
        maxArticles).1.digests.filter
      (digestKeyMatches topicId (startOfDay date))).length = 1 ∧
    (∀ d ∈ (generateDailyDigest st env date topicId true
        maxArticles).1.digests,
      digestKeyMatches topicId (startOfDay date) d = true →
        d.content = g.content ∧ d.id = st.nextDigestId) ∧
    (∀ k, k ≠ ("daily", topicId, startOfDay date) →
      (generateDailyDigest st env date topicId true
          maxArticles).1.digests.filter
        (fun x => decide (digestKey x = k)) =
      st.digests.filter fun x => decide (digestKey x = k)) ∧
    (∀ (st2 : DB) (env2 : DigestEnv) (date2 : Int)
        (topicId2 : Option String) (force2 : Bool) (max2 : Nat),
      uniqueDigests st2 →
      uniqueDigests (generateDailyDigest st2 env2 date2 topicId2 force2
        max2).1) := by
  have hekey : digestKeyMatches topicId (startOfDay date) e = true :=
    List.find?_some hfind
  have hemem : e ∈ st.digests := List.mem_of_find?_eq_some hfind
  have hdig : (generateDailyDigest st env date topicId true
      maxArticles).1.digests =
      (st.digests.filter fun d => decide (d.id ≠ e.id)) ++
        [newDigestRow st.nextDigestId topicId (startOfDay date) g] := by
    unfold generateDailyDigest
    simp only [hfind]
    unfold generateDailyDigestCore
    rw [if_neg hcand, hgen]
    rfl
  have hrow : digestKeyMatches topicId (startOfDay date)
      (newDigestRow st.nextDigestId topicId (startOfDay date) g) = true := by
    simp [digestKeyMatches, newDigestRow]
  have hA : (st.digests.filter fun d => decide (d.id ≠ e.id)).filter
      (digestKeyMatches topicId (startOfDay date)) = [] := by
    rw [List.filter_eq_nil_iff]
    intro b hb hpb
    obtain ⟨hbmem, hbid⟩ := List.mem_filter.mp hb
    have hbe : b = e := eq_of_key_eq st.digests huniq b e hbmem hemem
      (((digestKeyMatches_iff _ _ b).mp hpb).trans
        ((digestKeyMatches_iff _ _ e).mp hekey).symm)
    subst hbe
    simp at hbid
  refine ⟨?_, ?_, ?_, ?_⟩
  · rw [hdig, List.filter_append, hA,
      List.filter_cons_of_pos hrow, List.filter_nil]
    rfl
  · intro d hd hpd
    rw [hdig] at hd
    rcases List.mem_append.mp hd with hd | hd
    · exfalso
      obtain ⟨hdmem, hdid⟩ := List.mem_filter.mp hd
      have hde : d = e := eq_of_key_eq st.digests huniq d e hdmem hemem
        (((digestKeyMatches_iff _ _ d).mp hpd).trans
          ((digestKeyMatches_iff _ _ e).mp hekey).symm)
      subst hde
      simp at hdid
    · rw [List.mem_singleton] at hd
      subst hd
      exact ⟨rfl, rfl⟩
  · intro k hk
    rw [hdig, List.filter_append]
    have hrowk : ¬ ((decide (digestKey (newDigestRow st.nextDigestId topicId
        (startOfDay date) g) = k)) = true) := by
      simp only [decide_eq_true_eq]
      intro hEq
      exact hk (hEq ▸ rfl)
    have hsing : List.filter (fun x => decide (digestKey x = k))
        [newDigestRow st.nextDigestId topicId (startOfDay date) g] = [] := by
      simp only [List.filter_cons, List.filter_nil, if_neg hrowk]
    rw [hsing, List.append_nil, List.filter_filter]
    apply List.filter_congr
    intro x hxmem
    by_cases hxk : digestKey x = k
    · have hxe : x ≠ e := by
        intro hxe
        subst hxe
        exact hk (hxk.symm.trans ((digestKeyMatches_iff _ _ x).mp hekey))
      have hxid : x.id ≠ e.id := fun hid =>
        hxe (eq_of_id_eq st.digests hids x e hxmem hemem hid)
      simp [hxk, hxid]
    · simp [hxk]
  · intro st2 env2 date2 topicId2 force2 max2 h2
    exact generateDailyDigest_preserves_unique st2 env2 date2 topicId2
      force2 max2 h2

/-- Witness for C7 on a one-digest, one-article store. -/
theorem c7_force_regenerate_exactly_one_witness :
    ((generateDailyDigest
        ⟨[], [⟨none, "gnews", "t", "d", "c", "p", "u", "h", none, 0⟩],
         [⟨5, "daily", none, 0, some "Old", "old content", some "m"⟩], 9⟩
        ⟨some ⟨"NT", "new content", "m"⟩⟩ 0 none true 70).1.digests.filter
      (digestKeyMatches none (startOfDay 0))).length = 1 ∧
    (∀ d ∈ (generateDailyDigest
        ⟨[], [⟨none, "gnews", "t", "d", "c", "p", "u", "h", none, 0⟩],
         [⟨5, "daily", none, 0, some "Old", "old content", some "m"⟩], 9⟩
        ⟨some ⟨"NT", "new content", "m"⟩⟩ 0 none true 70).1.digests,
      digestKeyMatches none (startOfDay 0) d = true →
        d.content = "new content" ∧ d.id = 9) := by
  have h := c7_force_regenerate_exactly_one
    ⟨[], [⟨none, "gnews", "t", "d", "c", "p", "u", "h", none, 0⟩],
     [⟨5, "daily", none, 0, some "Old", "old content", some "m"⟩], 9⟩
    ⟨some ⟨"NT", "new content", "m"⟩⟩ 0 none 70
    ⟨5, "daily", none, 0, some "Old", "old content", some "m"⟩
    ⟨"NT", "new content", "m"⟩
    (by simp [uniqueDigests]) (by simp) rfl (by decide) rfl
  exact ⟨h.1, h.2.1⟩

/-! ## Claim about the fingerprint service (C1) -/

/-- C1 counterexample: two URLs that differ only by letter case (inside a
tracking-parameter name) produce different digests, because the
drop-list deletion runs before the final lowercasing. -/
theorem c1_counterexample :
    lowerStr "https://a.com/?UTM_SOURCE=x" =
      lowerStr "https://a.com/?utm_source=x" ∧
    "https://a.com/?UTM_SOURCE=x" ≠ "https://a.com/?utm_source=x" ∧
    hashUrl "https://a.com/?UTM_SOURCE=x" ≠
      hashUrl "https://a.com/?utm_source=x" := by
  decide

theorem lowerStr_append (s t : String) :
    lowerStr (s ++ t) = lowerStr s ++ lowerStr t := by
  show String.mk ((s ++ t).data.map lowerChar) =
    String.mk (s.data.map lowerChar) ++ String.mk (t.data.map lowerChar)
  rw [String.data_append, List.map_append]
  rfl

theorem lowerStr_eq_empty_iff (s : String) : lowerStr s = "" ↔ s = "" := by
  obtain ⟨l⟩ := s
  constructor
  · intro h
    have hd : l.map lowerChar = ([] : List Char) := congrArg String.data h
    have hl : l = [] := List.map_eq_nil_iff.mp hd
    rw [hl]
  · intro h
    rw [h]
    rfl

/-- The digest-equality congruence through parsing and hashing. -/
theorem hashUrl_congr_of_parse (s t : String) (p q : ParsedUrl)
    (hs : parseUrl s = some p) (ht : parseUrl t = some q)
    (h : normalizeFromParsed p = normalizeFromParsed q) :
    hashUrl s = hashUrl t := by
  unfold hashUrl normalizeUrl
  rw [hs, ht]
  show sha256OfString (normalizeFromParsed p) =
    sha256OfString (normalizeFromParsed q)
  rw [h]

/-- The rebuild ignores the fragment entirely. -/
theorem normalizeFromParsed_ignores_fragment (p q : ParsedUrl)
    (h1 : q.protocol = p.protocol) (h2 : q.host = p.host)
    (h3 : q.pathname = p.pathname) (h4 : q.searchParams = p.searchParams) :
    normalizeFromParsed q = normalizeFromParsed p := by
  unfold normalizeFromParsed
  rw [h1, h2, h3, h4]

/-- Deleting a drop-listed pair anywhere in the query is invisible to the
tracking filter. -/
theorem deleteTracking_drop (name value : String)
    (l1 l2 : List (String × String)) (hname : name ∈ trackingParams) :
    deleteTracking (l1 ++ (name, value) :: l2) = deleteTracking (l1 ++ l2) := by
  unfold deleteTracking
  rw [List.filter_append, List.filter_append, List.filter_cons]
  have hc : (!(trackingParams.contains (name, value).1)) = false := by
    simp only [Bool.not_eq_false']
    exact List.elem_eq_true_of_mem hname
  rw [hc]
  simp

/-- Encoding is the identity on strings of unescaped characters. -/
theorem formEncodeStr_of_safe (v : String)
    (h : ∀ c ∈ v.data, isFormSafe c = true) : formEncodeStr v = v := by
  unfold formEncodeStr
  obtain ⟨l⟩ := v
  simp only at h ⊢
  have : l.foldr (fun c acc => formEncodeChar c ++ acc) [] = l := by
    induction l with
    | nil => rfl
    | cons c t ih =>
        have hc := h c (List.mem_cons_self c t)
        have ht := fun x hx => h x (List.mem_cons_of_mem c hx)
        rw [List.foldr_cons, ih ht]
        show formEncodeChar c ++ t = c :: t
        unfold formEncodeChar
        rw [if_pos hc]
        rfl
  rw [this]

/-- The tracking filter respects pointwise name-equal relatedness. -/
theorem deleteTracking_paramsCaseEq (ps qs : List (String × String))
    (h : paramsCaseEq ps qs) :
    paramsCaseEq (deleteTracking ps) (deleteTracking qs) := by
  induction h with
  | nil => exact List.Forall₂.nil
  | cons hkv htail ih =>
      rename_i a b l1 l2
      unfold deleteTracking at ih ⊢
      rw [List.filter_cons, List.filter_cons]
      have hname : b.1 = a.1 := hkv.1.symm
      by_cases hmem : (!(trackingParams.contains a.1)) = true
      · rw [if_pos hmem, if_pos (by rw [hname]; exact hmem)]
        exact List.Forall₂.cons hkv ih
      · rw [if_neg hmem, if_neg (by rw [hname]; exact hmem)]
        exact ih

/-- Related parameter lists serialize to case-equivalent query strings. -/
theorem paramsToString_caseEq (ps qs : List (String × String))
    (h : paramsCaseEq ps qs) :
    lowerStr (paramsToString ps) = lowerStr (paramsToString qs) := by
  induction h with
  | nil => rfl
  | cons hkv htail ih =>
      rename_i a b l1 l2
      obtain ⟨hn, hv, hsa, hsb⟩ := hkv
      cases htail with
      | nil =>
          show lowerStr (formEncodeStr a.1 ++ "=" ++ formEncodeStr a.2) =
            lowerStr (formEncodeStr b.1 ++ "=" ++ formEncodeStr b.2)
          rw [formEncodeStr_of_safe a.2 hsa, formEncodeStr_of_safe b.2 hsb,
            lowerStr_append, lowerStr_append, lowerStr_append,
            lowerStr_append, hn, hv]
      | cons hkv2 htail2 =>
          rename_i x y t1 t2
          show lowerStr (formEncodeStr a.1 ++ "=" ++ formEncodeStr a.2 ++
              "&" ++ paramsToString (x :: t1)) =
            lowerStr (formEncodeStr b.1 ++ "=" ++ formEncodeStr b.2 ++
              "&" ++ paramsToString (y :: t2))
          rw [formEncodeStr_of_safe a.2 hsa, formEncodeStr_of_safe b.2 hsb]
          simp only [lowerStr_append]
          rw [hn, hv, ih]

/-- Related parameter lists are simultaneously empty. -/
theorem paramsCaseEq_nil_iff (ps qs : List (String × String))
    (h : paramsCaseEq ps qs) : ps = [] ↔ qs = [] := by
  cases h with
  | nil => simp
  | cons hkv htail => simp

/-- Case-equivalent components (with exactly-named query parameters whose
values use unescaped characters) normalize identically. -/
theorem normalizeFromParsed_caseEq (p q : ParsedUrl)
    (h1 : strCaseEq p.protocol q.protocol) (h2 : strCaseEq p.host q.host)
    (h3 : strCaseEq p.pathname q.pathname)
    (h4 : paramsCaseEq p.searchParams q.searchParams) :
    normalizeFromParsed p = normalizeFromParsed q := by
  unfold normalizeFromParsed
  simp only
  have hdel := deleteTracking_paramsCaseEq _ _ h4
  have hq := paramsToString_caseEq _ _ hdel
  have hbase : lowerStr (p.protocol ++ "//" ++ p.host ++ p.pathname) =
      lowerStr (q.protocol ++ "//" ++ q.host ++ q.pathname) := by
    simp only [lowerStr_append]
    unfold strCaseEq at h1 h2 h3
    rw [h1, h2, h3]
  by_cases hemp : paramsToString (deleteTracking p.searchParams) = ""
  · have hemp2 : paramsToString (deleteTracking q.searchParams) = "" := by
      rw [← lowerStr_eq_empty_iff, ← hq, hemp]
      rfl
    rw [if_pos hemp, if_pos hemp2, hbase]
  · have hemp2 : ¬ paramsToString (deleteTracking q.searchParams) = "" := by
      intro h0
      exact hemp (by rw [← lowerStr_eq_empty_iff, hq, h0]; rfl)
    rw [if_neg hemp, if_neg hemp2]
    simp only [lowerStr_append]
    unfold strCaseEq at h1 h2 h3
    rw [h1, h2, h3, hq]

theorem stripTrailingSlash_append_slash (x : String) :
    stripTrailingSlash (x ++ "/") = x := by
  unfold stripTrailingSlash
  have hrev : (x ++ "/").data.reverse = '/' :: x.data.reverse := by
    rw [String.data_append]
    simp [String.data]
  rw [hrev]
  simp

theorem stripTrailingSlash_of_getLast (s : String) (c : Char)
    (hl : s.data.getLast? = some c) (hc : c ≠ '/') :
    stripTrailingSlash s = s := by
  unfold stripTrailingSlash
  rw [List.getLast?_eq_head?_reverse] at hl
  cases hrev : s.data.reverse with
  | nil => rfl
  | cons a t =>
      rw [hrev] at hl
      have ha : a = c := by injection hl
      subst ha
      split
      · rename_i rest heq
        injection heq with hh1 hh2
        exact absurd hh1 hc
      · rfl

theorem lowerChar_ne_slash (c : Char) (hc : c ≠ '/') : lowerChar c ≠ '/' := by
  unfold lowerChar
  split
  · rename_i hup
    intro hEq
    have h65 : 65 ≤ c.toNat := by
      have := hup.1
      rw [Char.le_def] at this
      exact this
    have h90 : c.toNat ≤ 90 := by
      have := hup.2
      rw [Char.le_def] at this
      exact this
    have hv : (c.toNat + 32).isValidChar := by
      left
      omega
    have htn : (Char.ofNat (c.toNat + 32)).toNat = c.toNat + 32 := by
      unfold Char.ofNat
      rw [dif_pos hv]
      rfl
    have := congrArg Char.toNat hEq
    rw [htn] at this
    have hslash : ('/' : Char).toNat = 47 := rfl
    omega
  · exact hc

/-- Appending one trailing slash to a slash-free, query-free URL does not
change the normalization. -/
theorem normalizeFromParsed_trailing_slash (p q : ParsedUrl) (c : Char)
    (h1 : q.protocol = p.protocol) (h2 : q.host = p.host)
    (h3 : q.pathname = p.pathname ++ "/")
    (h4 : q.searchParams = p.searchParams)
    (hdel : deleteTracking p.searchParams = [])
    (hlast : p.pathname.data.getLast? = some c) (hc : c ≠ '/') :
    normalizeFromParsed q = normalizeFromParsed p := by
  unfold normalizeFromParsed
  simp only
  rw [h1, h2, h3, h4, hdel]
  rw [show paramsToString ([] : List (String × String)) = "" from rfl]
  rw [if_pos rfl, if_pos rfl]
  rw [show p.protocol ++ "//" ++ p.host ++ (p.pathname ++ "/") =
    (p.protocol ++ "//" ++ p.host ++ p.pathname) ++ "/" from
    (String.append_assoc _ _ _).symm]
  rw [lowerStr_append]
  rw [show lowerStr "/" = "/" from rfl]
  rw [stripTrailingSlash_append_slash]
  refine (stripTrailingSlash_of_getLast _ (lowerChar c) ?_
    (lowerChar_ne_slash c hc)).symm
  show (List.map lowerChar
    (p.protocol ++ "//" ++ p.host ++ p.pathname).data).getLast? =
    some (lowerChar c)
  rw [List.getLast?_map]
  rw [String.data_append, List.getLast?_append, hlast]
  rfl

/-- C1 amended: for parseable hierarchical URLs, `hashUrl` is invariant
under (a) letter-case changes in scheme, host, path and in
unescaped-character query values — but not inside query parameter names;
(b) the fragment; (c) the presence of a drop-listed tracking parameter
(exact lowercase name) anywhere in the query; and (d) one trailing slash
appended to a URL whose path does not already end in a slash and whose
query survives tracking-deletion empty. -/
theorem c1_fingerprint_invariance :
    (∀ (s t : String) (p q : ParsedUrl), parseUrl s = some p →
      parseUrl t = some q → strCaseEq p.protocol q.protocol →
      strCaseEq p.host q.host → strCaseEq p.pathname q.pathname →
      paramsCaseEq p.searchParams q.searchParams →
      hashUrl s = hashUrl t) ∧
    (∀ (s t : String) (p q : ParsedUrl), parseUrl s = some p →
      parseUrl t = some q → q.protocol = p.protocol → q.host = p.host →
      q.pathname = p.pathname → q.searchParams = p.searchParams →
      hashUrl s = hashUrl t) ∧
    (∀ (s t : String) (p q : ParsedUrl) (name value : String)
      (l1 l2 : List (String × String)), parseUrl s = some p →
      parseUrl t = some q → name ∈ trackingParams →
      p.searchParams = l1 ++ (name, value) :: l2 →
      q.searchParams = l1 ++ l2 → q.protocol = p.protocol →
      q.host = p.host → q.pathname = p.pathname →
      hashUrl s = hashUrl t) ∧
    (∀ (s t : String) (p q : ParsedUrl) (c : Char), parseUrl s = some p →
      parseUrl t = some q → q.protocol = p.protocol → q.host = p.host →
      q.pathname = p.pathname ++ "/" → q.searchParams = p.searchParams →
      deleteTracking p.searchParams = [] →
      p.pathname.data.getLast? = some c → c ≠ '/' →
      hashUrl s = hashUrl t) := by
  refine ⟨?_, ?_, ?_, ?_⟩
  · intro s t p q hs ht h1 h2 h3 h4
    exact hashUrl_congr_of_parse s t p q hs ht
      (normalizeFromParsed_caseEq p q h1 h2 h3 h4)
  · intro s t p q hs ht h1 h2 h3 h4
    exact hashUrl_congr_of_parse s t p q hs ht
      (normalizeFromParsed_ignores_fragment p q h1 h2 h3 h4).symm
  · intro s t p q name value l1 l2 hs ht hname hps hqs h1 h2 h3
    refine hashUrl_congr_of_parse s t p q hs ht ?_
    unfold normalizeFromParsed
    simp only
    rw [h1, h2, h3, hps, hqs, deleteTracking_drop name value l1 l2 hname]
  · intro s t p q c hs ht h1 h2 h3 h4 hdel hlast hc
    exact hashUrl_congr_of_parse s t p q hs ht
      (normalizeFromParsed_trailing_slash p q c h1 h2 h3 h4 hdel hlast
        hc).symm

/-- Witness for C1's amended theorem on concrete URL pairs. -/
theorem c1_fingerprint_invariance_witness :
    hashUrl "https://a.com/PATH?x=ABC" = hashUrl "https://a.com/path?x=abc" ∧
    hashUrl "https://a.com/p#frag" = hashUrl "https://a.com/p" ∧
    hashUrl "https://a.com/p?a=1&utm_source=x" =
      hashUrl "https://a.com/p?a=1" ∧
    hashUrl "https://a.com/p" = hashUrl "https://a.com/p/" := by
  refine ⟨?_, ?_, ?_, ?_⟩
  · exact c1_fingerprint_invariance.1
      "https://a.com/PATH?x=ABC" "https://a.com/path?x=abc"
      ⟨"https:", "a.com", "/PATH", [("x", "ABC")], ""⟩
      ⟨"https:", "a.com", "/path", [("x", "abc")], ""⟩
      (by decide) (by decide) rfl rfl rfl
      (List.Forall₂.cons ⟨rfl, rfl, by decide, by decide⟩
        List.Forall₂.nil)
  · exact c1_fingerprint_invariance.2.1
      "https://a.com/p#frag" "https://a.com/p"
      ⟨"https:", "a.com", "/p", [], "frag"⟩
      ⟨"https:", "a.com", "/p", [], ""⟩
      (by decide) (by decide) rfl rfl rfl rfl
  · exact c1_fingerprint_invariance.2.2.1
      "https://a.com/p?a=1&utm_source=x" "https://a.com/p?a=1"
      ⟨"https:", "a.com", "/p", [("a", "1"), ("utm_source", "x")], ""⟩
      ⟨"https:", "a.com", "/p", [("a", "1")], ""⟩
      "utm_source" "x" [("a", "1")] []
      (by decide) (by decide) (by decide) (by decide) (by decide)
      rfl rfl rfl
  · exact c1_fingerprint_invariance.2.2.2
      "https://a.com/p" "https://a.com/p/"
      ⟨"https:", "a.com", "/p", [], ""⟩
      ⟨"https:", "a.com", "/p/", [], ""⟩
      'p' (by decide) (by decide) rfl rfl (by decide) rfl (by decide)
      (by decide) (by decide)

end NewsV0
